import Mathlib

/-!
# Verification of DiskSyncPro (`src/disk_sync_pro.py`)

A shallow embedding of the reconciliation engine of `disk_sync_pro.py`
together with proofs and refutations of the frozen specification claims.

Paths are modelled as lists of path components (`List String`), matching
`pathlib.Path.parts` without the root marker; all paths handed to the engine
by the program are absolute and already resolved.  Machine-level details
(inode numbers, file descriptors) are abstracted away; file identity is the
component list, file state is size / integer mtime / an abstract content tag,
exactly the data the program's `is_same_file` and `shutil.copy2` interact
with.
-/

namespace DiskSyncPro

/-! ## Path & pattern matcher (`path_matches_patterns`, lines 796-808)

`path_matches_patterns` checks `pattern == path.name` and `path.match(pattern)`.
`Path.match` interprets the pattern as a sequence of shell-glob components
(split on `/`); a relative pattern is matched against the *rightmost*
components of the path, an absolute pattern against the whole path.  A single
glob component never crosses a `/`.  The component-level glob language used by
the configuration files of this program is literals plus `*` and `?`
(character classes are not modelled). -/

/-- Shell-glob match of a pattern against a string, on character lists.
`*` matches any (possibly empty) run of characters, `?` exactly one;
`fnmatch` does not treat `/` specially, so this is also the model of the
spec's "full path matches the pattern as a shell-style glob".  A `*`
consumes an arbitrary prefix, i.e. the rest of the pattern must match some
suffix of the string. -/
def fnmatchChars : List Char → List Char → Bool
  | [], s => s.isEmpty
  | '*' :: ps, s => s.tails.any (fun t => fnmatchChars ps t)
  | '?' :: ps, s =>
    match s with
    | [] => false
    | _ :: t => fnmatchChars ps t
  | p :: ps, s =>
    match s with
    | [] => false
    | c :: t => p = c && fnmatchChars ps t

/-- Glob match on strings (case-sensitive, as on POSIX). -/
def fnmatch (pat s : String) : Bool := fnmatchChars pat.data s.data

/-- Split a character list at `/` separators; `acc` holds the characters of
the current component in reverse. -/
def splitSlashAux : List Char → List Char → List String
  | [], acc => [String.mk acc.reverse]
  | '/' :: rest, acc => String.mk acc.reverse :: splitSlashAux rest []
  | c :: rest, acc => splitSlashAux rest (c :: acc)

/-- Components of a pattern string, as `pathlib` parses it: split on `/`,
empty components dropped. -/
def patternComps (pattern : String) : List String :=
  (splitSlashAux pattern.data []).filter (fun c => c ≠ "")

/-- Whether the pattern string is an absolute path pattern. -/
def patternIsAbs (pattern : String) : Bool :=
  match pattern.data with
  | '/' :: _ => true
  | _ => false

/-- All components of `comps` glob-match the corresponding components of
`parts` (same length assumed by the callers). -/
def compsMatch (comps parts : List String) : Bool :=
  (comps.zip parts).all (fun cp => fnmatch cp.1 cp.2)

/-- Model of `pathlib.Path.match` for a path given by its component list
(without the root): a relative pattern is matched, component-wise, against
the rightmost `comps.length` components; an absolute pattern must match the
whole component list.  `Path.match("")` raises in Python; the model returns
`false` there and the theorems only quantify over non-empty patterns. -/
def pathlibMatch (parts : List String) (pattern : String) : Bool :=
  let comps := patternComps pattern
  if comps.isEmpty then false
  else if patternIsAbs pattern then
    comps.length = parts.length && compsMatch comps parts
  else
    comps.length ≤ parts.length &&
      compsMatch comps (parts.drop (parts.length - comps.length))

/-- `path_matches_patterns` (lines 796-808): the final component equals the
pattern string, or `path.match(pattern)` succeeds (the redundant
`name == pattern` re-check of the source is kept). -/
def path_matches_patterns (parts : List String) (patterns : List String) : Bool :=
  let name := (parts.getLast?).getD ""
  patterns.any (fun pattern =>
    pattern = name || (pathlibMatch parts pattern || name = pattern))

/-- The matcher exactly as the specification words it (§4.1): final component
equals a pattern string, or the **full path string** matches a pattern as a
shell-style glob.  Used only to compare the spec's wording against the code. -/
def spec_path_matches (parts : List String) (patterns : List String) : Bool :=
  let name := (parts.getLast?).getD ""
  let full := "/" ++ String.intercalate "/" parts
  patterns.any (fun pattern => pattern = name || fnmatch pattern full)

/-! ## Configuration validation (`load_config`, lines 722-791)

Only the path checks of lines 764-773 are relevant to the claims.  Paths are
already `expanduser().resolve()`d; the model receives them as component
lists. -/

/-- `PurePath.relative_to`: the relative component list, or a `ValueError`
(modelled as `Except Unit`) when `p` is not equal to or below `base`. -/
def relative_to (p base : List String) : Except Unit (List String) :=
  if base.isPrefixOf p then Except.ok (p.drop base.length) else Except.error ()

/-- The body of the `try:` block at lines 769-771: call
`destination.relative_to(source)`, and — when that *succeeds* — raise
`ValueError("destination is inside source")`.  Either way a `ValueError`
leaves the block. -/
def descendant_try_body (source destination : List String) : Except Unit Unit :=
  match relative_to destination source with
  | Except.ok _ => Except.error ()
  | Except.error e => Except.error e

/-- The path checks of `load_config` (lines 764-773): reject
`source == destination`, then run the descendant check.  The
`except ValueError: pass` at line 772 catches **both** the `ValueError` of
`relative_to` and the deliberately raised rejection, so the descendant
branch always falls through to acceptance. -/
def load_config_path_checks (source destination : List String) : Except String Unit :=
  if source = destination then
    Except.error "source and destination are identical"
  else
    match descendant_try_body source destination with
    | Except.ok _ => Except.ok ()
    | Except.error _ => Except.ok ()

/-- What the specification says the validation does: also reject a
destination that is a strict descendant of the source.  Used only to compare
the spec's wording against the code. -/
def spec_path_checks (source destination : List String) : Except String Unit :=
  if source = destination then
    Except.error "source and destination are identical"
  else if source.isPrefixOf destination then
    Except.error "destination is inside source"
  else
    Except.ok ()

/-! ## Journal data model and serialization (`JournalOp`, `Journal`,
`save_journal` lines 1006-1053, `load_journal` lines 1056-1085)

`save_journal` builds one Python dict from the journal and `json.dump`s it
(deterministically) to both copies.  The JSON text is modelled by a
structured JSON value: `json.dump` is injective and deterministic on it, so
value equality of the serialized forms is byte-identity of the outputs. -/

/-- `JournalOp` dataclass (lines 295-309). -/
structure JournalOp where
  action : String
  target : String
  backup : Option String := none
  deriving DecidableEq, Repr

/-- `Journal` dataclass (lines 312-319). -/
structure Journal where
  job_name : String
  timestamp : String
  dest_root : String
  rollback_root : String
  status : String
  ops : List JournalOp
  deriving DecidableEq, Repr

/-- JSON values, as produced by `json.dump` / consumed by `json.load`.
Only the shapes the journal serialization uses are needed. -/
inductive JVal where
  | str : String → JVal
  | null : JVal
  | arr : List JVal → JVal
  | obj : List (String × JVal) → JVal

/-- The `asdict(op)` record of one op (line 1014): `backup: None` becomes
JSON `null`. -/
def serializeOp (op : JournalOp) : JVal :=
  JVal.obj [("action", JVal.str op.action),
            ("target", JVal.str op.target),
            ("backup", match op.backup with
                       | none => JVal.null
                       | some b => JVal.str b)]

/-- The `serializable` dict of `save_journal` (lines 1008-1015); field order
as written in the source. -/
def save_journal (journal : Journal) : JVal :=
  JVal.obj [("job_name", JVal.str journal.job_name),
            ("timestamp", JVal.str journal.timestamp),
            ("dest_root", JVal.str journal.dest_root),
            ("rollback_root", JVal.str journal.rollback_root),
            ("status", JVal.str journal.status),
            ("ops", JVal.arr (journal.ops.map serializeOp))]

/-- `raw.get(key)`: first binding of the key in a JSON object. -/
def getField (fields : List (String × JVal)) (key : String) : Option JVal :=
  (fields.find? (fun kv => kv.1 = key)).map (fun kv => kv.2)

/-- A required header field that `load_journal` reads with `raw[field]`
after the presence check of lines 1067-1070.  The Python code does not check
that the value is a string; a non-string value cannot arise from
`save_journal`, and the typed model reports it as a parse error. -/
def getStrField (fields : List (String × JVal)) (key : String) : Except String String :=
  match getField fields key with
  | some (JVal.str s) => Except.ok s
  | some _ => Except.error (key ++ " is not a string")
  | none => Except.error ("missing required field " ++ key)

/-- `JournalOp(**op)` (line 1074): the op dict must carry string `action` and
`target`; `backup` may be a string, `null`, or absent (dataclass default
`None`); any other key would be a `TypeError` (modelled as a parse error,
unreachable from `save_journal`). -/
def parseOp (v : JVal) : Except String JournalOp :=
  match v with
  | JVal.obj fields =>
    if (fields.map Prod.fst).all (fun k => k = "action" ∨ k = "target" ∨ k = "backup") then
      match getStrField fields "action", getStrField fields "target" with
      | Except.ok a, Except.ok t =>
        match getField fields "backup" with
        | none => Except.ok { action := a, target := t, backup := none }
        | some JVal.null => Except.ok { action := a, target := t, backup := none }
        | some (JVal.str b) => Except.ok { action := a, target := t, backup := some b }
        | some _ => Except.error "backup is neither a string nor null"
      | Except.error e, _ => Except.error e
      | _, Except.error e => Except.error e
    else Except.error "unexpected keyword argument"
  | _ => Except.error "op is not an object"

/-- Parse each element of the `ops` list, failing on the first bad one
(the `try` around the comprehension at lines 1073-1076). -/
def parseOps : List JVal → Except String (List JournalOp)
  | [] => Except.ok []
  | v :: vs =>
    match parseOp v, parseOps vs with
    | Except.ok op, Except.ok ops => Except.ok (op :: ops)
    | Except.error e, _ => Except.error e
    | _, Except.error e => Except.error e

/-- `load_journal` (lines 1056-1085) on an already-`json.load`ed value:
validate the four required header fields, read `status` with default
`"pending"`, parse `ops` with default `[]`. -/
def load_journal (v : JVal) : Except String Journal :=
  match v with
  | JVal.obj fields =>
    match getStrField fields "job_name", getStrField fields "timestamp",
          getStrField fields "dest_root", getStrField fields "rollback_root" with
    | Except.ok jn, Except.ok ts, Except.ok dr, Except.ok rr =>
      let status := match getField fields "status" with
                    | some (JVal.str s) => s
                    | _ => "pending"
      match (match getField fields "ops" with
             | some (JVal.arr vs) => parseOps vs
             | _ => Except.ok []) with
      | Except.ok ops =>
        Except.ok { job_name := jn, timestamp := ts, dest_root := dr,
                    rollback_root := rr, status := status, ops := ops }
      | Except.error e => Except.error e
    | Except.error e, _, _, _ => Except.error e
    | _, Except.error e, _, _ => Except.error e
    | _, _, Except.error e, _ => Except.error e
    | _, _, _, Except.error e => Except.error e
  | _ => Except.error "journal is not an object"

/-! ## Stats (`Stats` dataclass, lines 322-331) -/

/-- The statistics counters, all starting at zero. -/
structure Stats where
  created_files : Nat := 0
  replaced_files : Nat := 0
  deleted_files : Nat := 0
  safetynet_files : Nat := 0
  created_dirs : Nat := 0
  skipped_same : Nat := 0
  skipped_excluded : Nat := 0
  copy_failed : Nat := 0
  deriving DecidableEq, Repr

/-! ## Atomic copier with retries (`copy_with_retry`, lines 1351-1424)

`MAX_COPY_RETRY = 3` (line 75).  The filesystem outcomes the routine cannot
control — whether `shutil.copy2` of the pre-image succeeds, whether each
`atomic_copy` attempt raises, whether the post-copy hashes agree — are an
oracle (`CopyEnv`).  The routine's own behaviour (what it journals, counts
and returns) is computed from that oracle exactly as the source does. -/

/-- `MAX_COPY_RETRY` (line 75). -/
def MAX_COPY_RETRY : Nat := 3

/-- Outcome of one copy attempt: did `atomic_copy` succeed, and (read only
when `verify` is set) did the two SHA-256 hashes agree afterwards. -/
structure Attempt where
  copyOk : Bool
  hashMatch : Bool
  deriving DecidableEq, Repr

/-- One attempt of the retry loop (lines 1393-1405) completes without an
exception: the copy worked and, if verification is on, the hashes agree. -/
def attemptSucceeds (verify : Bool) (a : Attempt) : Bool :=
  a.copyOk && (!verify || a.hashMatch)

/-- Oracle for one `copy_with_retry` call. `dstExists` is `dst.exists()` at
entry (line 1365); `backupCopyOk` is whether the pre-image
`shutil.copy2(dst, backup_path)` at line 1373 succeeds; `attempts` are the
outcomes of the successive retry-loop iterations. -/
structure CopyEnv where
  dstExists : Bool
  backupCopyOk : Bool
  attempts : List Attempt
  deriving DecidableEq, Repr

/-- Everything `copy_with_retry` produces: its return value, the journal
ops it appended, the `Stats` deltas it applied, and whether the rollback
vault holds the pre-image of `dst` when the call returns. -/
structure CopyResult where
  ok : Bool
  ops : List JournalOp
  created_files : Nat
  replaced_files : Nat
  copy_failed : Nat
  backupExists : Bool
  deriving DecidableEq, Repr

/-- `copy_with_retry` (lines 1351-1424) for destination path string
`dstPath` whose vault pre-image location is `backupPath`.

* `action` is `replace_file` iff `dst` existed at entry (line 1365).
* The pre-image is copied into the vault only for a replace and only when
  not a dry run (lines 1368-1375); a failure of that copy is logged and
  **swallowed** — the vault then simply does not hold the pre-image.
* A dry run journals the op immediately (lines 1377-1390).
* Otherwise up to `MAX_COPY_RETRY` attempts run; on total failure the
  routine bumps `copy_failed`, appends nothing, and returns `False`
  (lines 1392-1411); on success it appends the op and bumps the counter of
  its action (lines 1413-1424). -/
def copy_with_retry (env : CopyEnv) (verify dry_run : Bool)
    (dstPath backupPath : String) : CopyResult :=
  let action := if env.dstExists then "replace_file" else "create_file"
  let recordedBackup : Option String :=
    if env.dstExists && !dry_run then some backupPath else none
  let backupExists := env.dstExists && !dry_run && env.backupCopyOk
  let op : JournalOp := { action := action, target := dstPath, backup := recordedBackup }
  if dry_run then
    { ok := true, ops := [op],
      created_files := if env.dstExists then 0 else 1,
      replaced_files := if env.dstExists then 1 else 0,
      copy_failed := 0, backupExists := backupExists }
  else
    let success := (env.attempts.take MAX_COPY_RETRY).any (attemptSucceeds verify)
    if success then
      { ok := true, ops := [op],
        created_files := if env.dstExists then 0 else 1,
        replaced_files := if env.dstExists then 1 else 0,
        copy_failed := 0, backupExists := backupExists }
    else
      { ok := false, ops := [], created_files := 0, replaced_files := 0,
        copy_failed := 1, backupExists := backupExists }

/-! ## Checkpoint store (`save_checkpoint` lines 1179-1215,
`add_processed_file_safe` lines 1830-1845)

The in-memory checkpoint keeps `processed` (a set of relative-path strings;
modelled as a duplicate-free list in processing order) and the true counter
`total_processed`.  `save_checkpoint` persists
`sorted(list(processed))[:1000]` — Python's `sorted` on strings is the
lexicographic order of Unicode code points, realised here by an insertion
sort, which agrees with any sort on a duplicate-free list. -/

/-- In-memory checkpoint state relevant to the claims. -/
structure CPState where
  processed : List String
  total_processed : Nat
  deriving DecidableEq, Repr

/-- The empty checkpoint (fresh run, `load_or_init_checkpoint` defaults). -/
def CPState.init : CPState := { processed := [], total_processed := 0 }

/-- `add_processed_file_safe` (lines 1830-1845): ignore a path already in
the set, otherwise add it and bump the true counter. -/
def add_processed_file_safe (cp : CPState) (rel : String) : CPState :=
  if rel ∈ cp.processed then cp
  else { processed := cp.processed ++ [rel], total_processed := cp.total_processed + 1 }

/-- Lexicographic code-point order on character lists (Python `str` `<=`). -/
def charListLe : List Char → List Char → Bool
  | [], _ => true
  | _ :: _, [] => false
  | a :: as, b :: bs => if a = b then charListLe as bs else decide (a.toNat < b.toNat)

/-- Python string comparison `a <= b`. -/
def pyStrLe (a b : String) : Prop := charListLe a.data b.data = true

instance : DecidableRel pyStrLe := fun a b => instDecidableEqBool (charListLe a.data b.data) true

/-- Python `sorted` on a duplicate-free list of strings. -/
def pySorted (l : List String) : List String := l.insertionSort pyStrLe

/-- The `processed_files` entry written by `save_checkpoint` (line 1190):
`sorted(list(cp["processed"]))[:1000]`. -/
def save_checkpoint_processed_files (processed : List String) : List String :=
  (pySorted processed).take 1000

/-- The `total_processed` entry written by `save_checkpoint` (line 1193). -/
def save_checkpoint_total (cp : CPState) : Nat := cp.total_processed

/-- What the claim says the on-disk list holds: the 1000 *most recently*
processed paths, i.e. the final 1000 entries in processing order.  Used only
to compare the claim's wording against the code. -/
def most_recent_processed (processed : List String) : List String :=
  processed.drop (processed.length - 1000)

/-! ## Worker step (`perform_backup.worker`, lines 1878-1944)

One dequeued task `(src_file, dst_file, rel_path)` processed by a worker
that has observed no cancellation.  The outcome of the
`dst_file.exists() and is_same_file(...)` check (line 1908) — true, false,
or an exception — is an oracle; the copy behaviour is the `copy_with_retry`
model. -/

/-- Outcome of the same-file check at line 1908. -/
inductive SameCheck where
  | same : SameCheck
  | notSame : SameCheck
  | errored : SameCheck
  deriving DecidableEq, Repr

/-- One worker iteration on a dequeued task (lines 1900-1944): on `same`,
count `skipped_same` and record the file in the checkpoint; on a same-check
exception, count `copy_failed` and move on; otherwise run `copy_with_retry`
and record the file in the checkpoint only if it returned `True`.  Returns
the new checkpoint state, the journal ops appended, and the stats deltas. -/
def worker_step (sc : SameCheck) (env : CopyEnv) (verify dry_run : Bool)
    (rel dstPath backupPath : String) (cp : CPState) :
    CPState × List JournalOp × Stats :=
  match sc with
  | SameCheck.same =>
    (add_processed_file_safe cp rel, [], { skipped_same := 1 })
  | SameCheck.errored =>
    (cp, [], { copy_failed := 1 })
  | SameCheck.notSame =>
    let r := copy_with_retry env verify dry_run dstPath backupPath
    (if r.ok then add_processed_file_safe cp rel else cp, r.ops,
     { created_files := r.created_files, replaced_files := r.replaced_files,
       copy_failed := r.copy_failed })

/-! ## The reconciliation pipeline (`perform_backup`, lines 1649-2286)

The run model covers a real (non-dry-run, non-resume, uncancelled) execution
in which every filesystem operation succeeds — the setting of the
idempotence, cleanup and reserved-tree claims.  Paths are component lists
relative to the respective root; the destination filesystem is a set of
directories plus a map from file paths to file state.  The concurrent
workers commit copies in some serial order; the model processes each
enqueued task at its enqueue point, a serialization the journal-ops /
statistics claims are insensitive to.  The destination-side mutations that
`perform_backup` performs *outside* the stages — the rollback-vault
directory of `prepare_journal` (line 970), and the journal / snapshot /
summary copies written into the `.DiskSyncPro` meta directory (lines 1728,
2215, 1521-1551, 1582-1591) — are part of the model, since the cleanup
stage can observe them. -/

/-- A path as a list of components, relative to the enclosing root. -/
abbrev RelPath := List String

/-- Observable state of one regular file: size, integer mtime, and an
abstract content tag (`shutil.copy2` preserves all three). -/
structure FileMeta where
  size : Nat
  mtime : Nat
  content : Nat
  deriving DecidableEq, Repr

/-- One directory yielded by `os.walk(job.source)`: its path relative to the
source root and the regular non-excluded-by-nothing files directly in it.
The list order of a `BackupJob.src` is the walk order (parents first). -/
structure SrcDir where
  path : RelPath
  files : List (String × FileMeta)
  deriving DecidableEq, Repr

/-- `BackupJob` (lines 283-292), with the source tree it will walk.
`safety_net_days` and `config_name` play no role in the modelled claims. -/
structure BackupJob where
  name : String
  src : List SrcDir
  mode : String
  exclude : List String
  verify : Bool
  deriving DecidableEq, Repr

/-- The destination filesystem: existing directories and regular files. -/
structure DestFS where
  dirs : List RelPath
  files : List (RelPath × FileMeta)
  deriving DecidableEq, Repr

/-- State of the file at `p`, if any. -/
def lookupFile (fs : DestFS) (p : RelPath) : Option FileMeta :=
  (fs.files.find? (fun e => e.1 = p)).map (fun e => e.2)

/-- Create or atomically overwrite the file at `p` (`os.replace` semantics). -/
def setFile (fs : DestFS) (p : RelPath) (m : FileMeta) : DestFS :=
  { fs with files := (p, m) :: fs.files.filter (fun e => e.1 ≠ p) }

/-- Remove the file at `p`. -/
def removeFile (fs : DestFS) (p : RelPath) : DestFS :=
  { fs with files := fs.files.filter (fun e => e.1 ≠ p) }

/-- `mkdir` of one directory (parents handled by the walk order). -/
def addDir (fs : DestFS) (d : RelPath) : DestFS :=
  if d ∈ fs.dirs then fs else { fs with dirs := d :: fs.dirs }

/-- A journal op over component-list paths; `target` and `backup` are
relative to the destination root (the source stores them as absolute path
strings). -/
structure FsOp where
  action : String
  target : RelPath
  backup : Option RelPath
  deriving DecidableEq, Repr

/-- Accumulated run state: destination filesystem, journal ops appended so
far (in commit order), statistics. -/
structure RunAcc where
  fs : DestFS
  ops : List FsOp
  stats : Stats
  deriving DecidableEq, Repr

/-- Componentwise sum of statistics. -/
def Stats.add (a b : Stats) : Stats :=
  { created_files := a.created_files + b.created_files,
    replaced_files := a.replaced_files + b.replaced_files,
    deleted_files := a.deleted_files + b.deleted_files,
    safetynet_files := a.safetynet_files + b.safetynet_files,
    created_dirs := a.created_dirs + b.created_dirs,
    skipped_same := a.skipped_same + b.skipped_same,
    skipped_excluded := a.skipped_excluded + b.skipped_excluded,
    copy_failed := a.copy_failed + b.copy_failed }

/-- A directory is reached by a walk that prunes excluded subdirectories
(`dirs[:] = [d for d in dirs if not path_matches_patterns(...)]`,
lines 1988 and 2136) iff none of its non-root ancestors — itself included —
matches the exclusion patterns.  The root is always reached. -/
def dirVisited (exclude : List String) (p : RelPath) : Bool :=
  ((List.range p.length).map (fun i => p.take (i + 1))).all
    (fun q => !path_matches_patterns q exclude)

/-- `ensure_dir` (lines 895-919): create the mirrored directory if missing,
recording a `create_dir` op and bumping `created_dirs`. -/
def ensure_dir (p : RelPath) (acc : RunAcc) : RunAcc :=
  if p ∈ acc.fs.dirs then acc
  else
    { fs := { acc.fs with dirs := p :: acc.fs.dirs },
      ops := acc.ops ++ [{ action := "create_dir", target := p, backup := none }],
      stats := { acc.stats with created_dirs := acc.stats.created_dirs + 1 } }

/-- One enqueued file processed by a worker, with the copy succeeding
(lines 1906-1937 plus `copy_with_retry`): skip excluded files at enqueue
time (line 2017), skip files equal by size and integer mtime (`is_same_file`,
line 843), otherwise capture the pre-image in the vault for a replacement
(lines 1368-1373) and copy the file, journalling the op. -/
def processFile (exclude : List String) (vault : RelPath) (dpath : RelPath)
    (acc : RunAcc) (f : String × FileMeta) : RunAcc :=
  let p := dpath ++ [f.1]
  if path_matches_patterns p exclude then
    { acc with stats :=
        { acc.stats with skipped_excluded := acc.stats.skipped_excluded + 1 } }
  else
    match lookupFile acc.fs p with
    | some m =>
      if m.size = f.2.size ∧ m.mtime = f.2.mtime then
        { acc with stats :=
            { acc.stats with skipped_same := acc.stats.skipped_same + 1 } }
      else
        let bp := vault ++ p
        { fs := setFile (setFile acc.fs bp m) p f.2,
          ops := acc.ops ++ [{ action := "replace_file", target := p, backup := some bp }],
          stats := { acc.stats with replaced_files := acc.stats.replaced_files + 1 } }
    | none =>
      { fs := setFile acc.fs p f.2,
        ops := acc.ops ++ [{ action := "create_file", target := p, backup := none }],
        stats := { acc.stats with created_files := acc.stats.created_files + 1 } }

/-- One directory of the source walk (lines 1967-2060): skip it if pruned,
otherwise mirror it and process its files. -/
def visitDir (job : BackupJob) (vault : RelPath) (acc : RunAcc) (d : SrcDir) : RunAcc :=
  if dirVisited job.exclude d.path then
    d.files.foldl (processFile job.exclude vault d.path) (ensure_dir d.path acc)
  else acc

/-- Stages 1 and 2 — scan, enqueue and copy (lines 1956-2092) — with every
copy succeeding, serialized at enqueue order. -/
def stage12 (job : BackupJob) (vault : RelPath) (fs : DestFS) : RunAcc :=
  job.src.foldl (visitDir job vault) { fs := fs, ops := [], stats := {} }

/-- The cleanup and bottom-up-removal walks skip a directory whose path
contains a component named `.Rollback` or `.SafetyNet` (lines 2132 and
2183).  `.DiskSyncPro` is **not** in these two lists. -/
def cleanupSkipDir (dir : RelPath) : Bool :=
  dir.contains ".Rollback" || dir.contains ".SafetyNet"

/-- The snapshot walk of `build_snapshot` skips `.Rollback`, `.SafetyNet`
**and** `.DiskSyncPro` (line 1449). -/
def snapshotSkipDir (dir : RelPath) : Bool :=
  dir.contains ".Rollback" || dir.contains ".SafetyNet" || dir.contains ".DiskSyncPro"

/-- `src_file.exists()` at line 2149: anything — file or directory — at the
mirrored source path. -/
def srcHasPath (job : BackupJob) (p : RelPath) : Bool :=
  job.src.any (fun d => d.path = p || d.files.any (fun f => d.path ++ [f.1] = p))

/-- The rollback-vault root for this run, relative to the destination
(`prepare_journal`, line 970). -/
def vaultRoot (job : BackupJob) (ts : String) : RelPath :=
  [".Rollback", job.name ++ "_" ++ ts]

/-- The date-partitioned SafetyNet root (`get_safety_net_dir`, line 926). -/
def safetyNetRoot (date : String) : RelPath := [".SafetyNet", date]

/-- Destination of a file moved to the SafetyNet (`move_to_safety_net`,
lines 931-964): the mirrored relative path under the date directory; on a
name collision a microsecond-derived suffix is appended (the source inserts
it before the extension via `with_stem`; the model appends it to the final
component). -/
def safetyNetTarget (fs : DestFS) (date usec : String) (p : RelPath) : RelPath :=
  let sn := safetyNetRoot date ++ p
  if (lookupFile fs sn).isSome then sn.dropLast ++ [sn.getLast?.getD "" ++ "_" ++ usec]
  else sn

/-- One destination file examined by the STAGE 3 cleanup walk
(lines 2126-2178): unreachable or excluded files are left alone; a file with
no source-side counterpart is moved into the vault (clone) or the SafetyNet
(safety_net) and a `delete_file` op recording the backup location is
appended. -/
def cleanupFile (job : BackupJob) (ts date usec : String)
    (acc : RunAcc) (e : RelPath × FileMeta) : RunAcc :=
  let p := e.1
  if cleanupSkipDir p.dropLast then acc
  else if !dirVisited job.exclude p.dropLast then acc
  else if path_matches_patterns p job.exclude then acc
  else if srcHasPath job p then acc
  else if job.mode = "clone" then
    let bp := vaultRoot job ts ++ p
    { fs := setFile (removeFile acc.fs p) bp e.2,
      ops := acc.ops ++ [{ action := "delete_file", target := p, backup := some bp }],
      stats := { acc.stats with deleted_files := acc.stats.deleted_files + 1 } }
  else
    let sn := safetyNetTarget acc.fs date usec p
    { fs := setFile (removeFile acc.fs p) sn e.2,
      ops := acc.ops ++ [{ action := "delete_file", target := p, backup := some sn }],
      stats := { acc.stats with safetynet_files := acc.stats.safetynet_files + 1 } }

/-- The file at `p` or a directory strictly below `d`? (`rmdir` failure
condition.) -/
def dirNonEmpty (fs : DestFS) (d : RelPath) : Bool :=
  fs.files.any (fun e => d.isPrefixOf e.1 && decide (d.length < e.1.length)) ||
    fs.dirs.any (fun d2 => d.isPrefixOf d2 && decide (d.length < d2.length))

/-- One attempted `rmdir` of the bottom-up empty-directory pass
(lines 2181-2194): directories inside the two skipped trees are never
attempted; an empty directory is removed and journalled as a backup-less
`delete_file`; a non-empty one raises `OSError`, which is passed over. -/
def rmdirStep (acc : DestFS × List FsOp) (d : RelPath) : DestFS × List FsOp :=
  if d = [] then acc
  else if cleanupSkipDir d.dropLast then acc
  else if d ∈ acc.1.dirs && !dirNonEmpty acc.1 d then
    ({ acc.1 with dirs := acc.1.dirs.filter (fun d2 => d2 ≠ d) },
     acc.2 ++ [{ action := "delete_file", target := d, backup := none }])
  else acc

/-- Deeper directories first (`os.walk(..., topdown=False)` attempts every
directory as a child of its parent's visit, so in decreasing depth). -/
def deeperFirst (a b : RelPath) : Prop := b.length ≤ a.length

instance : DecidableRel deeperFirst := fun a b => Nat.decLe b.length a.length

/-- STAGE 3 (lines 2094-2197): nothing at all under mode `sync`; otherwise
the cleanup walk over the destination files, followed — in clone mode
only — by the bottom-up removal of empty directories. -/
def stage3 (job : BackupJob) (ts date usec : String) (fs : DestFS) : RunAcc :=
  if job.mode = "clone" ∨ job.mode = "safety_net" then
    let acc := fs.files.foldl (cleanupFile job ts date usec)
      { fs := fs, ops := [], stats := {} }
    if job.mode = "clone" then
      let r := (acc.fs.dirs.insertionSort deeperFirst).foldl rmdirStep (acc.fs, [])
      { fs := r.1, ops := acc.ops ++ r.2, stats := acc.stats }
    else acc
  else { fs := fs, ops := [], stats := {} }

/-- Path of the journal copy inside the destination meta directory
(`save_journal` with `destination_root`, lines 1034-1045, file name from
`journal_path_for`, line 996). -/
def metaJournalFile (job : BackupJob) (ts : String) : RelPath :=
  [".DiskSyncPro", "journal_" ++ job.name ++ "_" ++ ts ++ ".json"]

/-- Write the destination-side journal copy (creates `.DiskSyncPro` first,
`get_dest_meta_dir` lines 999-1003). -/
def writeMetaJournal (job : BackupJob) (ts : String) (fs : DestFS) : DestFS :=
  setFile (addDir fs [".DiskSyncPro"]) (metaJournalFile job ts)
    { size := 0, mtime := 0, content := 0 }

/-- The snapshot, snapshot index and summary copies written into the meta
directory after a successful run (`build_snapshot` lines 1521-1551,
`write_summary` lines 1582-1591). -/
def writeSnapshotSummary (job : BackupJob) (ts : String) (fs : DestFS) : DestFS :=
  let fs1 := addDir (addDir fs [".DiskSyncPro"]) [".DiskSyncPro", "snapshots"]
  let fs2 := setFile fs1 [".DiskSyncPro", "snapshots", "snapshot_" ++ ts ++ ".json"]
    { size := 0, mtime := 0, content := 0 }
  let fs3 := setFile fs2 [".DiskSyncPro", "snapshots", "index.json"]
    { size := 0, mtime := 0, content := 0 }
  setFile fs3 [".DiskSyncPro", "summary_" ++ job.name ++ "_" ++ ts ++ ".json"]
    { size := 0, mtime := 0, content := 0 }

/-- The manifest of `build_snapshot` (lines 1429-1497): every regular
destination file whose directory chain avoids the three reserved names. -/
def build_snapshot_files (fs : DestFS) : List (RelPath × FileMeta) :=
  fs.files.filter (fun e => !snapshotSkipDir e.1.dropLast)

/-- One full successful run of `perform_backup` (lines 1649-2286) for the
job, at run timestamp `ts`, SafetyNet date `date` and collision suffix
`usec`: create the destination root (line 1677), the rollback vault
(line 1725/970) and the initial destination-side journal copy (line 1728);
run stages 1-3; re-save the journal with status `success` (line 2215) and
emit the destination-side snapshot and summary copies (lines 2224-2225). -/
def performRun (job : BackupJob) (ts date usec : String) (fs0 : DestFS) : RunAcc :=
  let fs1 := addDir fs0 []
  let fs2 := addDir (addDir fs1 [".Rollback"]) (vaultRoot job ts)
  let fs3 := writeMetaJournal job ts fs2
  let a1 := stage12 job (vaultRoot job ts) fs3
  let a2 := stage3 job ts date usec a1.fs
  let fs4 := writeSnapshotSummary job ts (writeMetaJournal job ts a2.fs)
  { fs := fs4, ops := a1.ops ++ a2.ops, stats := Stats.add a1.stats a2.stats }

/-! ## Derived notions used by the theorems -/

/-- Declarative form of the `pathlib.Path.match` semantics: the non-empty
pattern component list glob-matches the whole path (absolute pattern) or
some suffix of it of the same length (relative pattern). -/
def PathlibMatches (parts : List String) (pattern : String) : Prop :=
  patternComps pattern ≠ [] ∧
    ((patternIsAbs pattern = true ∧ (patternComps pattern).length = parts.length ∧
        compsMatch (patternComps pattern) parts = true) ∨
     (patternIsAbs pattern = false ∧ ∃ s, s <:+ parts ∧
        s.length = (patternComps pattern).length ∧
        compsMatch (patternComps pattern) s = true))

/-- Four-digit zero-padded decimal numeral, used to build concrete
relative-path strings whose lexicographic order is the numeric order. -/
def pad4 (n : Nat) : String :=
  String.mk [Nat.digitChar (n / 1000 % 10), Nat.digitChar (n / 100 % 10),
             Nat.digitChar (n / 10 % 10), Nat.digitChar (n % 10)]

/-- 1001 distinct relative paths in processing order: `0001` … `1000`
first, `0000` processed last. -/
def c6Processed : List String := (List.range 1000).map (fun i => pad4 (i + 1)) ++ [pad4 0]

/-- A minimal clone job: source tree is just its (empty) root. -/
def tinyCloneJob : BackupJob :=
  { name := "j", src := [{ path := [], files := [] }], mode := "clone",
    exclude := [], verify := false }

/-- An initially empty destination. -/
def emptyDest : DestFS := { dirs := [], files := [] }

/-- The files the planner will enqueue: files of reachable directories that
no exclusion pattern matches, with their full relative paths. -/
def targetsOf (exclude : List String) (src : List SrcDir) : List (RelPath × FileMeta) :=
  src.flatMap (fun d =>
    if dirVisited exclude d.path then
      (d.files.filter (fun f => !path_matches_patterns (d.path ++ [f.1]) exclude)).map
        (fun f => (d.path ++ [f.1], f.2))
    else [])

/-- The files of reachable directories that an exclusion pattern matches. -/
def excludedOf (exclude : List String) (src : List SrcDir) : List (String × FileMeta) :=
  src.flatMap (fun d =>
    if dirVisited exclude d.path then
      d.files.filter (fun f => path_matches_patterns (d.path ++ [f.1]) exclude)
    else [])

/-- All file paths of a source tree, relative to the source root. -/
def srcPathsOf (src : List SrcDir) : List RelPath :=
  src.flatMap (fun d => d.files.map (fun f => d.path ++ [f.1]))

/-- The destination holds, at `p`, a file that `is_same_file` considers
equal to a source file of state `m` (same size, same integer mtime). -/
def sameAt (fs : DestFS) (p : RelPath) (m : FileMeta) : Prop :=
  ∃ m2, lookupFile fs p = some m2 ∧ m2.size = m.size ∧ m2.mtime = m.mtime

/-- The three reserved top-level names of the destination. -/
def reservedNames : List String := [".Rollback", ".SafetyNet", ".DiskSyncPro"]

/-- A path that does not enter any reserved destination tree. -/
def reservedFree (p : RelPath) : Prop := ∀ r ∈ reservedNames, p.head? ≠ some r

instance decReservedFree (p : RelPath) : Decidable (reservedFree p) :=
  inferInstanceAs (Decidable (∀ r ∈ reservedNames, p.head? ≠ some r))

/-! ## Concrete oracles and jobs used by the witnesses -/

/-- Replacement whose pre-image capture fails but whose copy succeeds. -/
def envCaptureFail : CopyEnv :=
  { dstExists := true, backupCopyOk := false,
    attempts := [{ copyOk := true, hashMatch := true }] }

/-- Replacement whose pre-image capture and copy both succeed. -/
def envAllOk : CopyEnv :=
  { dstExists := true, backupCopyOk := true,
    attempts := [{ copyOk := true, hashMatch := true }] }

/-- Creation (destination absent) whose copy succeeds. -/
def envCreateOk : CopyEnv :=
  { dstExists := false, backupCopyOk := true,
    attempts := [{ copyOk := true, hashMatch := true }] }

/-- Three attempts that all copy but fail hash verification. -/
def envHashFail : CopyEnv :=
  { dstExists := true, backupCopyOk := true,
    attempts := [{ copyOk := true, hashMatch := false },
                 { copyOk := true, hashMatch := false },
                 { copyOk := true, hashMatch := false }] }

/-- A sync job over a root with no files. -/
def tinySyncJob : BackupJob :=
  { name := "j", src := [{ path := [], files := [] }], mode := "sync",
    exclude := [], verify := false }

/-- A destination holding one stale file at its root. -/
def staleDest : DestFS :=
  { dirs := [[]], files := [(["stale.txt"], { size := 1, mtime := 2, content := 3 })] }

/-- The empty in-memory checkpoint. -/
def emptyCP : CPState := { processed := [], total_processed := 0 }

/-- A sync job with one copied file and one excluded file. -/
def syncJobTwo : BackupJob :=
  { name := "j",
    src := [{ path := [], files := [("a.txt", { size := 5, mtime := 100, content := 7 })] },
            { path := ["b"], files := [("c.tmp", { size := 3, mtime := 200, content := 9 })] }],
    mode := "sync", exclude := ["*.tmp"], verify := false }

/-- A journal with every kind of op and both backup shapes. -/
def sampleJournal : Journal :=
  { job_name := "j", timestamp := "20250101_120000", dest_root := "/d",
    rollback_root := "/d/.Rollback/j_20250101_120000", status := "success",
    ops := [{ action := "create_dir", target := "/d/b", backup := none },
            { action := "create_file", target := "/d/a.txt", backup := none },
            { action := "replace_file", target := "/d/b/c.txt",
              backup := some "/d/.Rollback/j_20250101_120000/b/c.txt" },
            { action := "delete_file", target := "/d/stale.txt",
              backup := some "/d/.SafetyNet/2025-01-01/stale.txt" }] }

/-! ## Shared lemmas -/

set_option maxRecDepth 16384

/-- STAGE 3 runs only for `clone` and `safety_net` (line 2125): under
`sync` it is the identity on the destination and contributes nothing. -/
theorem stage3_sync_identity (job : BackupJob) (ts date usec : String) (fs : DestFS)
    (h : job.mode = "sync") :
    stage3 job ts date usec fs = { fs := fs, ops := [], stats := {} } := by
  unfold stage3
  rw [h]
  rw [if_neg (by decide : ¬("sync" = "clone" ∨ "sync" = "safety_net"))]

/-! ## The claims -/

/-- **C3** (code bug).  The claim says a job whose destination is a strict
descendant of its source — or equal to it — is rejected at configuration
load.  Equality *is* rejected, but the descendant rejection at line 771 is
raised inside the very `try` block whose `except ValueError: pass`
(line 772) was meant to absorb only `relative_to`'s failure, so a strictly
descendant destination is silently accepted, while the spec's wording would
reject it. -/
theorem C3_descendant_rejection_swallowed :
    load_config_path_checks ["data"] ["data"] =
      Except.error "source and destination are identical" ∧
    load_config_path_checks ["data"] ["data", "backup"] = Except.ok () ∧
    spec_path_checks ["data"] ["data", "backup"] =
      Except.error "destination is inside source" := by
  exact ⟨rfl, rfl, rfl⟩

/-- **C4** (confirmed).  When all `MAX_COPY_RETRY` attempts fail —
including by hash mismatch under `verify` — `copy_with_retry` returns
failure without raising: `copy_failed` is bumped exactly once, no journal
op is appended, and the worker loop records nothing and continues
(the task is simply finished). -/
theorem C4_total_copy_failure_is_contained (env : CopyEnv) (verify : Bool)
    (dstPath backupPath rel : String) (cp : CPState)
    (h : ∀ a ∈ env.attempts.take MAX_COPY_RETRY, attemptSucceeds verify a = false) :
    (copy_with_retry env verify false dstPath backupPath).ok = false ∧
    (copy_with_retry env verify false dstPath backupPath).ops = [] ∧
    (copy_with_retry env verify false dstPath backupPath).copy_failed = 1 ∧
    (copy_with_retry env verify false dstPath backupPath).created_files = 0 ∧
    (copy_with_retry env verify false dstPath backupPath).replaced_files = 0 ∧
    worker_step SameCheck.notSame env verify false rel dstPath backupPath cp =
      (cp, [], { copy_failed := 1 }) := by
  have hs : (env.attempts.take MAX_COPY_RETRY).any (attemptSucceeds verify) = false := by
    cases hAny : (env.attempts.take MAX_COPY_RETRY).any (attemptSucceeds verify) with
    | false => rfl
    | true =>
      obtain ⟨a, ha, hsa⟩ := List.any_eq_true.mp hAny
      rw [h a ha] at hsa
      cases hsa
  simp [copy_with_retry, worker_step, hs]

/-- Witness for C4: three attempts that all fail hash verification. -/
theorem C4_total_copy_failure_is_contained_witness :
    (∀ a ∈ envHashFail.attempts.take MAX_COPY_RETRY, attemptSucceeds true a = false) ∧
    (copy_with_retry envHashFail true false "d" "b").ok = false ∧
    (copy_with_retry envHashFail true false "d" "b").ops = [] ∧
    (copy_with_retry envHashFail true false "d" "b").copy_failed = 1 ∧
    (copy_with_retry envHashFail true false "d" "b").created_files = 0 ∧
    (copy_with_retry envHashFail true false "d" "b").replaced_files = 0 ∧
    worker_step SameCheck.notSame envHashFail true false "r" "d" "b" emptyCP =
      (emptyCP, [], { copy_failed := 1 }) :=
  ⟨by decide, C4_total_copy_failure_is_contained envHashFail true "d" "b" "r" emptyCP (by decide)⟩

/-- **C5** (confirmed).  Under `mode=sync` the cleanup stage performs no
destination-side mutation whatsoever: destination-only files stay where
they are, no vault or SafetyNet entry is created, no `delete_file` op is
appended, no counter moves. -/
theorem C5_sync_cleanup_is_noop (job : BackupJob) (ts date usec : String)
    (fs : DestFS) (h : job.mode = "sync") :
    stage3 job ts date usec fs = { fs := fs, ops := [], stats := {} } :=
  stage3_sync_identity job ts date usec fs h

/-- Witness for C5: a destination with a stale file, untouched by the
sync-mode cleanup. -/
theorem C5_sync_cleanup_is_noop_witness :
    tinySyncJob.mode = "sync" ∧
    stage3 tinySyncJob "t" "d" "u" staleDest =
      { fs := staleDest, ops := [], stats := {} } :=
  ⟨rfl, C5_sync_cleanup_is_noop tinySyncJob "t" "d" "u" staleDest rfl⟩

/-- **C1**, counterexample.  The pre-image `shutil.copy2` at line 1373 can
fail; the failure is logged and swallowed (lines 1374-1375), the
replacement then succeeds, and the `replace_file` op is appended recording
a backup path at which no file exists. -/
theorem C1_counterexample :
    (copy_with_retry envCaptureFail false false "/d/a.txt" "/d/.Rollback/j_ts/a.txt").ops =
      [{ action := "replace_file", target := "/d/a.txt",
         backup := some "/d/.Rollback/j_ts/a.txt" }] ∧
    (copy_with_retry envCaptureFail false false "/d/a.txt" "/d/.Rollback/j_ts/a.txt").ok = true ∧
    (copy_with_retry envCaptureFail false false "/d/a.txt" "/d/.Rollback/j_ts/a.txt").backupExists
      = false := by
  exact ⟨by decide, by decide, by decide⟩

/-- **C1** as amended.  In a real run a journal op is appended only after
some copy attempt succeeded, and every appended `replace_file` op records
the vault backup path; the backup is guaranteed to exist at append time
only under the extra hypothesis that the pre-image capture itself
succeeded — a capture failure is logged and swallowed, not propagated. -/
theorem C1_replace_op_backup (env : CopyEnv) (verify : Bool)
    (dstPath backupPath : String) (hcap : env.backupCopyOk = true) :
    ((copy_with_retry env verify false dstPath backupPath).ops ≠ [] →
      (copy_with_retry env verify false dstPath backupPath).ok = true ∧
      (env.attempts.take MAX_COPY_RETRY).any (attemptSucceeds verify) = true) ∧
    (∀ op ∈ (copy_with_retry env verify false dstPath backupPath).ops,
      op.action = "replace_file" →
      op.backup = some backupPath ∧
      (copy_with_retry env verify false dstPath backupPath).backupExists = true) := by
  cases hsucc : (env.attempts.take MAX_COPY_RETRY).any (attemptSucceeds verify) with
  | false => simp [copy_with_retry, hsucc]
  | true =>
    cases hdst : env.dstExists with
    | false => simp [copy_with_retry, hsucc, hdst]
    | true => simp [copy_with_retry, hsucc, hdst, hcap]

/-- Witness for C1 as amended: a successful replacement with a successful
pre-image capture. -/
theorem C1_replace_op_backup_witness :
    envAllOk.backupCopyOk = true ∧
    (((copy_with_retry envAllOk false false "/d/a.txt" "/d/.Rollback/j_ts/a.txt").ops ≠ [] →
        (copy_with_retry envAllOk false false "/d/a.txt" "/d/.Rollback/j_ts/a.txt").ok = true ∧
        (envAllOk.attempts.take MAX_COPY_RETRY).any (attemptSucceeds false) = true) ∧
      (∀ op ∈ (copy_with_retry envAllOk false false "/d/a.txt" "/d/.Rollback/j_ts/a.txt").ops,
        op.action = "replace_file" →
        op.backup = some "/d/.Rollback/j_ts/a.txt" ∧
        (copy_with_retry envAllOk false false "/d/a.txt"
          "/d/.Rollback/j_ts/a.txt").backupExists = true)) :=
  ⟨rfl, C1_replace_op_backup envAllOk false "/d/a.txt" "/d/.Rollback/j_ts/a.txt" rfl⟩

/-- **C2** (code bug).  STAGE 3's cleanup walk skips only `.Rollback` and
`.SafetyNet` (line 2132) — `.DiskSyncPro` is missing from the tuple, unlike
the snapshot walk (line 1449).  Already in a minimal clone run over an
empty source, the cleanup therefore quarantines the journal copy that the
run itself wrote into the destination meta directory at start, journalling
a `delete_file` for it, while the snapshot manifest (correctly) lists
nothing under the reserved trees. -/
theorem C2_cleanup_walks_into_meta_dir :
    ({ action := "delete_file", target := [".DiskSyncPro", "journal_j_ts1.json"],
       backup := some [".Rollback", "j_ts1", ".DiskSyncPro", "journal_j_ts1.json"] } : FsOp)
      ∈ (performRun tinyCloneJob "ts1" "d1" "u1" emptyDest).ops ∧
    lookupFile (performRun tinyCloneJob "ts1" "d1" "u1" emptyDest).fs
      [".Rollback", "j_ts1", ".DiskSyncPro", "journal_j_ts1.json"] =
      some { size := 0, mtime := 0, content := 0 } ∧
    build_snapshot_files (performRun tinyCloneJob "ts1" "d1" "u1" emptyDest).fs = [] := by
  exact ⟨by decide, by decide, by decide⟩

/-- **C7**, counterexample.  Running the same clone job twice back-to-back
does not give an empty second journal: the second run's cleanup quarantines
the `.DiskSyncPro` artifacts of both runs (and the first run already
deletes its own journal copy), so the second journal is non-empty even for
an empty source tree. -/
theorem C7_counterexample :
    (performRun tinyCloneJob "ts2" "d2" "u2"
      (performRun tinyCloneJob "ts1" "d1" "u1" emptyDest).fs).ops ≠ [] := by
  decide

/-- **C9**, counterexample.  `Path.match` anchors a relative multi-component
pattern at the *right end* of the path, component-wise; the spec's
"full path matches the pattern as a shell-style glob" does not.  The two
disagree in both directions: `data/*.txt` matches `/home/u/data/file.txt`
only under the code's matcher, and `*b*` matches `/a/b/c` only under the
spec's full-path glob. -/
theorem C9_counterexample :
    path_matches_patterns ["home", "u", "data", "file.txt"] ["data/*.txt"] = true ∧
    spec_path_matches ["home", "u", "data", "file.txt"] ["data/*.txt"] = false ∧
    spec_path_matches ["a", "b", "c"] ["*b*"] = true ∧
    path_matches_patterns ["a", "b", "c"] ["*b*"] = false := by
  exact ⟨by decide, by decide, by decide, by decide⟩

/-- **C6**, counterexample.  `save_checkpoint` persists
`sorted(list(processed))[:1000]` — the 1000 *lexicographically smallest*
entries, not the 1000 most recent.  With `0001 … 1000` processed first
and `0000` processed last, the path `1000` is among the 1000 most recently
processed but absent from the persisted list. -/
theorem C6_counterexample :
    pad4 1000 ∈ most_recent_processed c6Processed ∧
    pad4 1000 ∉ save_checkpoint_processed_files c6Processed := by
  exact ⟨by decide, by decide⟩

/-- **C10** (confirmed).  A worker records a file in the checkpoint (and
bumps the true counter) exactly when the file was detected as
destination-equivalent or its copy succeeded; a file whose copy fails after
all retries is not recorded, so the resume check `rel_path in cp["processed"]`
(line 2045) will re-enqueue it on a later run. -/
theorem C10_checkpoint_only_on_success (sc : SameCheck) (env : CopyEnv)
    (verify : Bool) (rel dstPath backupPath : String) (cp : CPState)
    (h : rel ∉ cp.processed) :
    ((worker_step sc env verify false rel dstPath backupPath cp).1 =
      if sc = SameCheck.same ∨ (sc = SameCheck.notSame ∧
          (copy_with_retry env verify false dstPath backupPath).ok = true)
      then { processed := cp.processed ++ [rel],
             total_processed := cp.total_processed + 1 }
      else cp) ∧
    (sc = SameCheck.notSame →
      (copy_with_retry env verify false dstPath backupPath).ok = false →
      rel ∉ (worker_step sc env verify false rel dstPath backupPath cp).1.processed) := by
  cases sc with
  | same => simp [worker_step, add_processed_file_safe, h]
  | errored => simp [worker_step, h]
  | notSame =>
    cases hok : (copy_with_retry env verify false dstPath backupPath).ok with
    | false => simp [worker_step, add_processed_file_safe, hok, h]
    | true => simp [worker_step, add_processed_file_safe, hok, h]

/-- Witness for C10: a successful copy of a not-yet-processed file. -/
theorem C10_checkpoint_only_on_success_witness :
    "a.txt" ∉ emptyCP.processed ∧
    (((worker_step SameCheck.notSame envCreateOk false false "a.txt" "d" "b" emptyCP).1 =
      if SameCheck.notSame = SameCheck.same ∨ (SameCheck.notSame = SameCheck.notSame ∧
          (copy_with_retry envCreateOk false false "d" "b").ok = true)
      then { processed := emptyCP.processed ++ ["a.txt"],
             total_processed := emptyCP.total_processed + 1 }
      else emptyCP) ∧
    (SameCheck.notSame = SameCheck.notSame →
      (copy_with_retry envCreateOk false false "d" "b").ok = false →
      "a.txt" ∉ (worker_step SameCheck.notSame envCreateOk false false
        "a.txt" "d" "b" emptyCP).1.processed)) :=
  ⟨by decide, C10_checkpoint_only_on_success SameCheck.notSame envCreateOk false
    "a.txt" "d" "b" emptyCP (by decide)⟩

/-- One serialized op parses back to itself. -/
theorem parseOp_serializeOp (op : JournalOp) : parseOp (serializeOp op) = Except.ok op := by
  obtain ⟨a, t, b⟩ := op
  cases b <;> rfl

/-- A serialized ops list parses back to itself. -/
theorem parseOps_map (ops : List JournalOp) :
    parseOps (ops.map serializeOp) = Except.ok ops := by
  induction ops with
  | nil => rfl
  | cons op ops ih => simp [parseOps, parseOp_serializeOp, ih]

/-- **C8** (confirmed).  Journal serialization round-trips: loading a saved
journal — any job name, timestamp, roots, status string and ops list with
optional backups — returns a journal equal to the original, and re-saving
the loaded journal produces the identical serialized value, hence (by
determinism of `json.dump`) byte-identical output. -/
theorem C8_journal_roundtrip (j : Journal) :
    load_journal (save_journal j) = Except.ok j ∧
    ∀ j2, load_journal (save_journal j) = Except.ok j2 → save_journal j2 = save_journal j := by
  obtain ⟨jn, ts, dr, rr, st, ops⟩ := j
  have h1 : load_journal (save_journal ⟨jn, ts, dr, rr, st, ops⟩) =
      Except.ok ⟨jn, ts, dr, rr, st, ops⟩ := by
    simp [load_journal, save_journal, getStrField, getField, parseOps_map]
  refine ⟨h1, fun j2 h2 => ?_⟩
  rw [h1] at h2
  cases h2
  rfl

/-- Witness for C8 at a concrete journal with all four op kinds. -/
theorem C8_journal_roundtrip_witness :
    load_journal (save_journal sampleJournal) = Except.ok sampleJournal ∧
    ∀ j2, load_journal (save_journal sampleJournal) = Except.ok j2 →
      save_journal j2 = save_journal sampleJournal :=
  C8_journal_roundtrip sampleJournal

/-- The Boolean `pathlib.Path.match` model agrees with its declarative
form: a non-empty component pattern matched against the whole path
(absolute) or against some suffix of matching length (relative). -/
theorem pathlibMatch_iff (parts : List String) (pattern : String) :
    pathlibMatch parts pattern = true ↔ PathlibMatches parts pattern := by
  unfold pathlibMatch PathlibMatches
  cases hE : (patternComps pattern).isEmpty with
  | true =>
    have h0 : patternComps pattern = [] := by simpa using hE
    simp [h0]
  | false =>
    have hcne : patternComps pattern ≠ [] := by simpa using hE
    cases hA : patternIsAbs pattern with
    | true =>
      simp only [hE, hA, Bool.false_eq_true, if_false, if_true,
        Bool.and_eq_true, decide_eq_true_eq]
      constructor
      · rintro ⟨hlen, hcm⟩
        exact ⟨hcne, Or.inl ⟨trivial, hlen, hcm⟩⟩
      · rintro ⟨-, ⟨-, hlen, hcm⟩ | ⟨hfalse, -⟩⟩
        · exact ⟨hlen, hcm⟩
        · cases hfalse
    | false =>
      simp only [hE, hA, Bool.false_eq_true, if_false, if_true,
        Bool.and_eq_true, decide_eq_true_eq]
      constructor
      · rintro ⟨hlen, hcm⟩
        refine ⟨hcne, Or.inr ⟨trivial, parts.drop (parts.length - (patternComps pattern).length),
          List.drop_suffix _ _, ?_, hcm⟩⟩
        rw [List.length_drop]
        omega
      · rintro ⟨-, ⟨hfalse, -⟩ | ⟨-, s, hs, hslen, hcm⟩⟩
        · cases hfalse
        · obtain ⟨t, ht⟩ := hs
          have hlen : (patternComps pattern).length ≤ parts.length := by
            rw [← ht, List.length_append]
            omega
          have hdrop : parts.drop (parts.length - (patternComps pattern).length) = s := by
            rw [← ht, List.length_append, ← hslen]
            have : t.length + s.length - s.length = t.length := by omega
            rw [this, List.drop_left]
          rw [hdrop]
          exact ⟨hlen, hcm⟩

/-- **C9** as amended.  For non-empty patterns, the matcher returns true
iff some pattern string equals the final path component, or the path
matches some pattern under `pathlib` semantics — the pattern's `/`-split
components glob-matched (never across separators) against the rightmost
components of the path, or against the whole path for an absolute
pattern — not under a full-path-string shell glob.  Matching is
case-sensitive and purely syntactic on the logical path. -/
theorem C9_matcher_characterization (parts patterns : List String)
    (hne : ∀ p ∈ patterns, p ≠ "") :
    path_matches_patterns parts patterns = true ↔
      ∃ p ∈ patterns, parts.getLast? = some p ∨ PathlibMatches parts p := by
  unfold path_matches_patterns
  rw [List.any_eq_true]
  constructor
  · rintro ⟨p, hp, h⟩
    simp only [Bool.or_eq_true, decide_eq_true_eq, pathlibMatch_iff] at h
    refine ⟨p, hp, ?_⟩
    rcases h with h | h | h
    · cases hl : parts.getLast? with
      | none => exact absurd (by simpa [hl] using h) (hne p hp)
      | some x =>
        left
        rw [hl] at h
        simpa using h.symm
    · exact Or.inr h
    · cases hl : parts.getLast? with
      | none => exact absurd (by simpa [hl] using h.symm) (hne p hp)
      | some x =>
        left
        rw [hl] at h
        simpa using h
  · rintro ⟨p, hp, h | h⟩
    · refine ⟨p, hp, ?_⟩
      simp only [Bool.or_eq_true, decide_eq_true_eq]
      left
      simp [h]
    · refine ⟨p, hp, ?_⟩
      simp only [Bool.or_eq_true, decide_eq_true_eq, pathlibMatch_iff]
      exact Or.inr (Or.inl h)

/-- Witness for C9 as amended: a literal final-component pattern. -/
theorem C9_matcher_characterization_witness :
    (∀ p ∈ [".git"], p ≠ "") ∧
    (path_matches_patterns ["a", ".git"] [".git"] = true ↔
      ∃ p ∈ [".git"], (["a", ".git"] : List String).getLast? = some p ∨
        PathlibMatches ["a", ".git"] p) :=
  ⟨by decide, C9_matcher_characterization ["a", ".git"] [".git"] (by decide)⟩

/-- Characters with equal code points are equal. -/
theorem charToNat_inj {a b : Char} (h : a.toNat = b.toNat) : a = b :=
  Char.eq_of_val_eq (UInt32.ext h)

/-- Code-point lexicographic order is total. -/
theorem charListLe_total : ∀ a b : List Char,
    charListLe a b = true ∨ charListLe b a = true
  | [], _ => Or.inl rfl
  | _ :: _, [] => Or.inr rfl
  | x :: xs, y :: ys => by
    by_cases hxy : x = y
    · subst hxy
      rcases charListLe_total xs ys with h | h
      · left
        simpa [charListLe] using h
      · right
        simpa [charListLe] using h
    · rcases Nat.lt_trichotomy x.toNat y.toNat with h | h | h
      · left
        simp [charListLe, hxy, h]
      · exact absurd (charToNat_inj h) hxy
      · right
        simp [charListLe, Ne.symm hxy, h]

/-- Code-point lexicographic order is transitive. -/
theorem charListLe_trans : ∀ a b c : List Char,
    charListLe a b = true → charListLe b c = true → charListLe a c = true
  | [], _, _, _, _ => rfl
  | _ :: _, [], _, h, _ => by cases h
  | _ :: _, _ :: _, [], _, h => by cases h
  | x :: xs, y :: ys, z :: zs, h1, h2 => by
    by_cases hxy : x = y <;> by_cases hyz : y = z
    · subst hxy
      subst hyz
      simp only [charListLe, if_pos rfl] at h1 h2 ⊢
      exact charListLe_trans xs ys zs h1 h2
    · subst hxy
      simp only [charListLe, if_neg hyz] at h2
      simp [charListLe, hyz, h2]
    · subst hyz
      simp only [charListLe, if_neg hxy] at h1
      simp [charListLe, hxy, h1]
    · simp only [charListLe, if_neg hxy, if_neg hyz, decide_eq_true_eq] at h1 h2
      by_cases hxz : x = z
      · subst hxz
        exact absurd (Nat.lt_trans h1 h2) (Nat.lt_irrefl _)
      · simp [charListLe, hxz, Nat.lt_trans h1 h2]

instance : IsTotal String pyStrLe :=
  ⟨fun a b => charListLe_total a.data b.data⟩

instance : IsTrans String pyStrLe :=
  ⟨fun _ _ _ h1 h2 => charListLe_trans _ _ _ h1 h2⟩

/-- `add_processed_file_safe` keeps the counter equal to the number of
distinct recorded paths, and the recorded set duplicate-free. -/
theorem add_processed_invariant (evs : List String) :
    ∀ cp : CPState, cp.total_processed = cp.processed.length → cp.processed.Nodup →
      (evs.foldl add_processed_file_safe cp).total_processed =
        (evs.foldl add_processed_file_safe cp).processed.length ∧
      (evs.foldl add_processed_file_safe cp).processed.Nodup := by
  induction evs with
  | nil => exact fun cp h hn => ⟨h, hn⟩
  | cons e evs ih =>
    intro cp h hn
    rw [List.foldl_cons]
    unfold add_processed_file_safe
    by_cases he : e ∈ cp.processed
    · rw [if_pos he]
      exact ih cp h hn
    · rw [if_neg he]
      refine ih _ (by simp [h]) ?_
      simp only [List.nodup_append, List.nodup_cons, List.not_mem_nil, not_false_iff,
        List.nodup_nil, and_true, List.disjoint_singleton]
      exact ⟨hn, trivial, he⟩

/-- **C6** as amended.  The persisted `total_processed` equals the true
number of distinct files recorded so far, but the persisted
`processed_files` list is `sorted(...)[:1000]` — the 1000 *lexicographically
smallest* recorded paths (a sorted subset, everything dropped being
lexicographically above everything kept) — not the 1000 most recently
processed. -/
theorem C6_truncation_and_counter (evs : List String) :
    save_checkpoint_total (evs.foldl add_processed_file_safe CPState.init) =
      (evs.foldl add_processed_file_safe CPState.init).processed.length ∧
    (evs.foldl add_processed_file_safe CPState.init).processed.Nodup ∧
    (∀ processed : List String,
      (save_checkpoint_processed_files processed).length = min 1000 processed.length ∧
      (∀ x ∈ save_checkpoint_processed_files processed, x ∈ processed) ∧
      (save_checkpoint_processed_files processed).Sorted pyStrLe ∧
      (∀ x ∈ processed, x ∉ save_checkpoint_processed_files processed →
        ∀ y ∈ save_checkpoint_processed_files processed, pyStrLe y x)) := by
  obtain ⟨h1, h2⟩ := add_processed_invariant evs CPState.init rfl List.nodup_nil
  refine ⟨h1, h2, fun processed => ?_⟩
  have hperm : (pySorted processed).Perm processed := List.perm_insertionSort pyStrLe processed
  have hsorted : (pySorted processed).Sorted pyStrLe := List.sorted_insertionSort pyStrLe processed
  refine ⟨?_, ?_, ?_, ?_⟩
  · simp only [save_checkpoint_processed_files]
    rw [List.length_take, hperm.length_eq]
  · intro x hx
    exact hperm.mem_iff.mp ((List.take_sublist _ _).mem hx)
  · exact hsorted.sublist (List.take_sublist _ _)
  · intro x hx hnx y hy
    have hxs : x ∈ pySorted processed := hperm.mem_iff.mpr hx
    rw [← List.take_append_drop 1000 (pySorted processed)] at hxs
    rcases List.mem_append.mp hxs with hxt | hxd
    · exact absurd hxt hnx
    · have hpair := hsorted
      rw [← List.take_append_drop 1000 (pySorted processed)] at hpair
      exact (List.pairwise_append.mp hpair).2.2 y hy x hxd

/-! ### Destination-filesystem lemmas -/

/-- `find?` by key skips a filtered-out different key. -/
theorem find?_filter_key (l : List (RelPath × FileMeta)) (p q : RelPath) (h : q ≠ p) :
    (l.filter (fun e => e.1 ≠ p)).find? (fun e => e.1 = q) =
      l.find? (fun e => e.1 = q) := by
  induction l with
  | nil => rfl
  | cons e l ih =>
    by_cases hp : e.1 = p
    · have h1 : (decide (e.1 ≠ p)) = false := by simp [hp]
      have h2 : (decide (e.1 = q)) = false := by
        simp only [hp, decide_eq_false_iff_not]
        exact fun hh => h hh.symm
      simp only [List.filter_cons, h1, Bool.false_eq_true, if_false, List.find?_cons, h2]
      exact ih
    · have h1 : (decide (e.1 ≠ p)) = true := by simp [hp]
      simp only [List.filter_cons, h1, if_true, List.find?_cons]
      cases hq : decide (e.1 = q) with
      | true => rfl
      | false => exact ih

/-- Lookup after `setFile`. -/
theorem lookupFile_setFile (fs : DestFS) (p : RelPath) (m : FileMeta) (q : RelPath) :
    lookupFile (setFile fs p m) q = if q = p then some m else lookupFile fs q := by
  by_cases h : q = p
  · subst h
    simp [lookupFile, setFile, List.find?_cons]
  · rw [if_neg h]
    unfold lookupFile setFile
    simp only []
    rw [List.find?_cons_of_neg _ (by simpa using Ne.symm h)]
    rw [find?_filter_key _ _ _ h]

/-- `setFile` does not touch directories. -/
theorem dirs_setFile (fs : DestFS) (p : RelPath) (m : FileMeta) :
    (setFile fs p m).dirs = fs.dirs := rfl

/-- `addDir` does not touch files. -/
theorem lookupFile_addDir (fs : DestFS) (d : RelPath) (q : RelPath) :
    lookupFile (addDir fs d) q = lookupFile fs q := by
  unfold addDir
  split <;> rfl

/-- `addDir` keeps existing directories. -/
theorem mem_dirs_addDir (fs : DestFS) (d e : RelPath) (h : e ∈ fs.dirs) :
    e ∈ (addDir fs d).dirs := by
  unfold addDir
  split
  · exact h
  · exact List.mem_cons_of_mem _ h

/-- Lookups only depend on the file map. -/
theorem lookupFile_congr {fs1 fs2 : DestFS} (h : fs1.files = fs2.files) (q : RelPath) :
    lookupFile fs1 q = lookupFile fs2 q := by
  unfold lookupFile
  rw [h]

/-- A reserved-tree path is never a reserved-free path. -/
theorem reservedFree_ne_of_head {p : RelPath} (hres : reservedFree p) (r : String)
    (hr : r ∈ reservedNames) {q : RelPath} (hq : q.head? = some r) : p ≠ q :=
  fun h => hres r hr (h ▸ hq)

/-- Appending below the vault root stays in the `.Rollback` tree. -/
theorem head?_vault_append (job : BackupJob) (ts : String) (x : RelPath) :
    (vaultRoot job ts ++ x).head? = some ".Rollback" := rfl

/-- `sameAt` transports along equal lookups. -/
theorem sameAt_of_lookup_eq {fs1 fs2 : DestFS} {p : RelPath} {m : FileMeta}
    (h : lookupFile fs2 p = lookupFile fs1 p) (hs : sameAt fs1 p m) : sameAt fs2 p m := by
  obtain ⟨m2, hl, h1, h2⟩ := hs
  exact ⟨m2, h ▸ hl, h1, h2⟩

/-- Writing a file whose path starts at `.DiskSyncPro` does not affect a
reserved-free lookup. -/
theorem lookupFile_setFile_meta (fs : DestFS) (p : RelPath) (m : FileMeta) (q : RelPath)
    (hp : p.head? = some ".DiskSyncPro") (hres : reservedFree q) :
    lookupFile (setFile fs p m) q = lookupFile fs q := by
  rw [lookupFile_setFile,
    if_neg (reservedFree_ne_of_head hres ".DiskSyncPro" (by simp [reservedNames]) hp)]

/-- The meta-directory writers do not affect reserved-free lookups. -/
theorem lookupFile_writeMetaJournal (job : BackupJob) (ts : String) (fs : DestFS)
    {q : RelPath} (hres : reservedFree q) :
    lookupFile (writeMetaJournal job ts fs) q = lookupFile fs q := by
  unfold writeMetaJournal
  rw [lookupFile_setFile_meta _ (metaJournalFile job ts) _ q rfl hres, lookupFile_addDir]

/-- The snapshot / summary writers do not affect reserved-free lookups. -/
theorem lookupFile_writeSnapshotSummary (job : BackupJob) (ts : String) (fs : DestFS)
    {q : RelPath} (hres : reservedFree q) :
    lookupFile (writeSnapshotSummary job ts fs) q = lookupFile fs q := by
  unfold writeSnapshotSummary
  rw [lookupFile_setFile_meta _
      [".DiskSyncPro", "summary_" ++ job.name ++ "_" ++ ts ++ ".json"] _ q rfl hres,
    lookupFile_setFile_meta _ [".DiskSyncPro", "snapshots", "index.json"] _ q rfl hres,
    lookupFile_setFile_meta _
      [".DiskSyncPro", "snapshots", "snapshot_" ++ ts ++ ".json"] _ q rfl hres,
    lookupFile_addDir, lookupFile_addDir]

/-- The meta-directory writers keep existing directories. -/
theorem mem_dirs_writeMetaJournal (job : BackupJob) (ts : String) (fs : DestFS)
    {e : RelPath} (h : e ∈ fs.dirs) : e ∈ (writeMetaJournal job ts fs).dirs := by
  unfold writeMetaJournal
  rw [dirs_setFile]
  exact mem_dirs_addDir _ _ _ h

/-- The snapshot / summary writers keep existing directories. -/
theorem mem_dirs_writeSnapshotSummary (job : BackupJob) (ts : String) (fs : DestFS)
    {e : RelPath} (h : e ∈ fs.dirs) : e ∈ (writeSnapshotSummary job ts fs).dirs := by
  unfold writeSnapshotSummary
  rw [dirs_setFile, dirs_setFile, dirs_setFile]
  exact mem_dirs_addDir _ _ _ (mem_dirs_addDir _ _ _ h)

/-! ### Planner and copy-stage lemmas -/

/-- `processFile` never touches directories. -/
theorem processFile_dirs (exclude : List String) (vault dpath : RelPath)
    (acc : RunAcc) (f : String × FileMeta) :
    (processFile exclude vault dpath acc f).fs.dirs = acc.fs.dirs := by
  simp only [processFile]
  split
  · rfl
  · split
    · split
      · rfl
      · rfl
    · rfl

/-- `ensure_dir` never touches files. -/
theorem ensure_dir_files (p : RelPath) (acc : RunAcc) :
    (ensure_dir p acc).fs.files = acc.fs.files := by
  unfold ensure_dir
  split <;> rfl

/-- After `ensure_dir p`, the directory `p` exists. -/
theorem ensure_dir_mem_self (p : RelPath) (acc : RunAcc) :
    p ∈ (ensure_dir p acc).fs.dirs := by
  unfold ensure_dir
  split
  · assumption
  · exact List.mem_cons_self _ _

/-- `ensure_dir` keeps existing directories. -/
theorem ensure_dir_dirs_mono (p : RelPath) (acc : RunAcc) {e : RelPath}
    (h : e ∈ acc.fs.dirs) : e ∈ (ensure_dir p acc).fs.dirs := by
  unfold ensure_dir
  split
  · exact h
  · exact List.mem_cons_of_mem _ h

/-- `processFile` writes only at the file's own destination path and at its
vault pre-image path. -/
theorem processFile_lookup_preserved (exclude : List String) (vault dpath : RelPath)
    (acc : RunAcc) (f : String × FileMeta) (p : RelPath)
    (h1 : p ≠ dpath ++ [f.1]) (h2 : p ≠ vault ++ (dpath ++ [f.1])) :
    lookupFile (processFile exclude vault dpath acc f).fs p = lookupFile acc.fs p := by
  simp only [processFile]
  split
  · rfl
  · split
    · split
      · rfl
      · rw [lookupFile_setFile, if_neg h1, lookupFile_setFile, if_neg h2]
    · rw [lookupFile_setFile, if_neg h1]

/-- A run of `processFile`s preserves the lookup of any reserved-free path
that is not among the processed files' paths. -/
theorem files_foldl_lookup_preserved (exclude : List String) (vault dpath : RelPath)
    (hvault : vault.head? = some ".Rollback") (files : List (String × FileMeta)) :
    ∀ (acc : RunAcc) (p : RelPath), reservedFree p →
      (∀ f ∈ files, dpath ++ [f.1] ≠ p) →
      lookupFile (files.foldl (processFile exclude vault dpath) acc).fs p =
        lookupFile acc.fs p := by
  induction files with
  | nil => intro acc p _ _; rfl
  | cons f fs ih =>
    intro acc p hres hne
    rw [List.foldl_cons, ih _ p hres (fun g hg => hne g (List.mem_cons_of_mem _ hg))]
    refine processFile_lookup_preserved _ _ _ _ _ _
      (Ne.symm (hne f (List.mem_cons_self _ _))) ?_
    refine reservedFree_ne_of_head hres ".Rollback" (by simp [reservedNames]) ?_
    rw [List.head?_append, hvault]
    rfl

/-- One planner directory visit preserves the lookup of any reserved-free
path that is not among its files' paths. -/
theorem visitDir_lookup_preserved (job : BackupJob) (vault : RelPath) (acc : RunAcc)
    (d : SrcDir) (p : RelPath) (hvault : vault.head? = some ".Rollback")
    (hres : reservedFree p) (hne : ∀ f ∈ d.files, d.path ++ [f.1] ≠ p) :
    lookupFile (visitDir job vault acc d).fs p = lookupFile acc.fs p := by
  unfold visitDir
  split
  · rw [files_foldl_lookup_preserved _ _ _ hvault _ _ p hres hne]
    exact lookupFile_congr (ensure_dir_files _ _) p
  · rfl

/-- The whole planner fold preserves the lookup of any reserved-free path
outside the source tree's file paths. -/
theorem foldl_visitDir_lookup_preserved (job : BackupJob) (vault : RelPath)
    (hvault : vault.head? = some ".Rollback") (src : List SrcDir) :
    ∀ (acc : RunAcc) (p : RelPath), reservedFree p →
      (∀ q ∈ srcPathsOf src, q ≠ p) →
      lookupFile (src.foldl (visitDir job vault) acc).fs p = lookupFile acc.fs p := by
  induction src with
  | nil => intro acc p _ _; rfl
  | cons d rest ih =>
    intro acc p hres hne
    rw [List.foldl_cons]
    rw [ih _ p hres (fun q hq => hne q (by
      simp only [srcPathsOf, List.flatMap_cons, List.mem_append]
      exact Or.inr hq))]
    refine visitDir_lookup_preserved _ _ _ _ _ hvault hres (fun f hf => hne _ (by
      simp only [srcPathsOf, List.flatMap_cons, List.mem_append]
      exact Or.inl (List.mem_map_of_mem _ hf)))

/-- Processing a non-excluded file makes destination and source agree at its
path (`skipped_same` or a fresh copy). -/
theorem processFile_establishes (exclude : List String) (vault dpath : RelPath)
    (acc : RunAcc) (f : String × FileMeta)
    (hne : path_matches_patterns (dpath ++ [f.1]) exclude = false) :
    sameAt (processFile exclude vault dpath acc f).fs (dpath ++ [f.1]) f.2 := by
  simp only [processFile, hne, Bool.false_eq_true, if_false]
  cases hl : lookupFile acc.fs (dpath ++ [f.1]) with
  | some m =>
    simp only [hl]
    by_cases hsame : m.size = f.2.size ∧ m.mtime = f.2.mtime
    · rw [if_pos hsame]
      exact ⟨m, hl, hsame.1, hsame.2⟩
    · rw [if_neg hsame]
      exact ⟨f.2, by rw [lookupFile_setFile, if_pos rfl], rfl, rfl⟩
  | none =>
    simp only [hl]
    exact ⟨f.2, by rw [lookupFile_setFile, if_pos rfl], rfl, rfl⟩

/-- After the per-directory fold, destination and source agree at every
non-excluded file of the directory (paths being duplicate-free). -/
theorem files_foldl_sameAt (exclude : List String) (vault dpath : RelPath)
    (hvault : vault.head? = some ".Rollback") (files : List (String × FileMeta)) :
    ∀ (acc : RunAcc) (f : String × FileMeta), f ∈ files →
      (files.map (fun g => dpath ++ [g.1])).Nodup →
      (∀ g ∈ files, reservedFree (dpath ++ [g.1])) →
      path_matches_patterns (dpath ++ [f.1]) exclude = false →
      sameAt (files.foldl (processFile exclude vault dpath) acc).fs
        (dpath ++ [f.1]) f.2 := by
  induction files with
  | nil => intro _ f hf; cases hf
  | cons g gs ih =>
    intro acc f hf hnd hres hne
    rw [List.foldl_cons]
    rcases List.mem_cons.mp hf with rfl | hftail
    · have hest := processFile_establishes exclude vault dpath acc f hne
      refine sameAt_of_lookup_eq ?_ hest
      refine files_foldl_lookup_preserved _ _ _ hvault _ _ _
        (hres f (List.mem_cons_self _ _)) ?_
      intro g' hg' heq
      have hmem : dpath ++ [f.1] ∈ List.map (fun g => dpath ++ [g.1]) gs := by
        rw [← heq]
        exact List.mem_map_of_mem _ hg'
      exact (List.nodup_cons.mp hnd).1 hmem
    · exact ih _ f hftail (List.nodup_cons.mp hnd).2
        (fun g' hg' => hres g' (List.mem_cons_of_mem _ hg')) hne

/-- A target path is one of the source file paths. -/
theorem targetsOf_path_mem (exclude : List String) (src : List SrcDir) :
    ∀ pe ∈ targetsOf exclude src, pe.1 ∈ srcPathsOf src := by
  intro pe hpe
  simp only [targetsOf, List.mem_flatMap] at hpe
  obtain ⟨d, hd, hin⟩ := hpe
  by_cases hv : dirVisited exclude d.path = true
  · rw [if_pos hv] at hin
    simp only [List.mem_map, List.mem_filter] at hin
    obtain ⟨f, ⟨hfmem, -⟩, rfl⟩ := hin
    simp only [srcPathsOf, List.mem_flatMap]
    exact ⟨d, hd, List.mem_map_of_mem _ hfmem⟩
  · rw [if_neg hv] at hin
    cases hin

/-- After the planner-and-copy fold, destination and source agree at every
enqueued (reachable, non-excluded) file. -/
theorem foldl_visitDir_sameAt (job : BackupJob) (vault : RelPath)
    (hvault : vault.head? = some ".Rollback") (src : List SrcDir) :
    ∀ (acc : RunAcc), (srcPathsOf src).Nodup →
      (∀ q ∈ srcPathsOf src, reservedFree q) →
      ∀ pe ∈ targetsOf job.exclude src,
        sameAt (src.foldl (visitDir job vault) acc).fs pe.1 pe.2 := by
  induction src with
  | nil =>
    intro acc _ _ pe hpe
    simp [targetsOf] at hpe
  | cons d rest ih =>
    intro acc hnd hres pe hpe
    have hsplit : srcPathsOf (d :: rest) =
        (d.files.map (fun f => d.path ++ [f.1])) ++ srcPathsOf rest := by
      simp [srcPathsOf, List.flatMap_cons]
    rw [hsplit] at hnd hres
    obtain ⟨hnd1, hnd2, hdisj⟩ := List.nodup_append.mp hnd
    rw [List.foldl_cons]
    simp only [targetsOf, List.flatMap_cons, List.mem_append] at hpe
    rcases hpe with hd | htail
    · cases hv : dirVisited job.exclude d.path with
      | false =>
        rw [if_neg (by simp [hv])] at hd
        cases hd
      | true =>
        rw [if_pos hv] at hd
        simp only [List.mem_map, List.mem_filter, Bool.not_eq_true'] at hd
        obtain ⟨f, ⟨hfmem, hfex⟩, rfl⟩ := hd
        have hp_mem : d.path ++ [f.1] ∈ d.files.map (fun g => d.path ++ [g.1]) :=
          List.mem_map_of_mem _ hfmem
        have hp_res : reservedFree (d.path ++ [f.1]) :=
          hres _ (List.mem_append.mpr (Or.inl hp_mem))
        refine sameAt_of_lookup_eq
          (foldl_visitDir_lookup_preserved job vault hvault rest _ _ hp_res
            (fun q hq heq => hdisj (heq ▸ hp_mem) hq)) ?_
        show sameAt (visitDir job vault acc d).fs (d.path ++ [f.1]) f.2
        unfold visitDir
        rw [if_pos hv]
        exact files_foldl_sameAt job.exclude vault d.path hvault d.files _ f hfmem hnd1
          (fun g hg => hres _ (List.mem_append.mpr (Or.inl (List.mem_map_of_mem _ hg)))) hfex
    · exact ih (visitDir job vault acc d) hnd2
        (fun q hq => hres q (List.mem_append.mpr (Or.inr hq))) pe htail

/-- The per-directory fold never touches directories. -/
theorem files_foldl_dirs (exclude : List String) (vault dpath : RelPath)
    (files : List (String × FileMeta)) :
    ∀ acc : RunAcc,
      (files.foldl (processFile exclude vault dpath) acc).fs.dirs = acc.fs.dirs := by
  induction files with
  | nil => intro _; rfl
  | cons f fs ih =>
    intro acc
    rw [List.foldl_cons, ih, processFile_dirs]

/-- A directory visit keeps existing directories. -/
theorem visitDir_dirs_mono (job : BackupJob) (vault : RelPath) (acc : RunAcc)
    (d : SrcDir) {e : RelPath} (h : e ∈ acc.fs.dirs) :
    e ∈ (visitDir job vault acc d).fs.dirs := by
  unfold visitDir
  split
  · rw [files_foldl_dirs]
    exact ensure_dir_dirs_mono _ _ h
  · exact h

/-- The planner fold keeps existing directories. -/
theorem foldl_visitDir_dirs_mono (job : BackupJob) (vault : RelPath) (src : List SrcDir) :
    ∀ (acc : RunAcc) {e : RelPath}, e ∈ acc.fs.dirs →
      e ∈ (src.foldl (visitDir job vault) acc).fs.dirs := by
  induction src with
  | nil => intro _ _ h; exact h
  | cons d rest ih =>
    intro acc e h
    rw [List.foldl_cons]
    exact ih _ (visitDir_dirs_mono _ _ _ _ h)

/-- The planner creates (or finds) the mirror of every reachable source
directory. -/
theorem foldl_visitDir_visits (job : BackupJob) (vault : RelPath) (src : List SrcDir) :
    ∀ (acc : RunAcc) (d : SrcDir), d ∈ src → dirVisited job.exclude d.path = true →
      d.path ∈ (src.foldl (visitDir job vault) acc).fs.dirs := by
  induction src with
  | nil => intro _ _ h; cases h
  | cons g rest ih =>
    intro acc d hd hv
    rw [List.foldl_cons]
    rcases List.mem_cons.mp hd with rfl | hdr
    · refine foldl_visitDir_dirs_mono _ _ _ _ ?_
      unfold visitDir
      rw [if_pos hv, files_foldl_dirs]
      exact ensure_dir_mem_self _ _
    · exact ih _ d hdr hv

/-- When destination and source already agree at every non-excluded file of
the directory, the per-directory fold only counts skips: no copy, no op, no
filesystem change. -/
theorem files_foldl_noop (exclude : List String) (vault dpath : RelPath)
    (files : List (String × FileMeta)) :
    ∀ acc : RunAcc,
      (∀ f ∈ files, path_matches_patterns (dpath ++ [f.1]) exclude = false →
        sameAt acc.fs (dpath ++ [f.1]) f.2) →
      files.foldl (processFile exclude vault dpath) acc =
        { acc with stats := { acc.stats with
            skipped_same := acc.stats.skipped_same + (files.filter
              (fun f => !path_matches_patterns (dpath ++ [f.1]) exclude)).length,
            skipped_excluded := acc.stats.skipped_excluded + (files.filter
              (fun f => path_matches_patterns (dpath ++ [f.1]) exclude)).length } } := by
  induction files with
  | nil => intro acc _; rfl
  | cons f fs ih =>
    intro acc hsame
    rw [List.foldl_cons]
    cases hx : path_matches_patterns (dpath ++ [f.1]) exclude with
    | true =>
      have hstep : processFile exclude vault dpath acc f =
          { acc with stats := { acc.stats with
              skipped_excluded := acc.stats.skipped_excluded + 1 } } := by
        simp only [processFile, hx, if_true]
      rw [hstep, ih { acc with stats := { acc.stats with
            skipped_excluded := acc.stats.skipped_excluded + 1 } }
        (fun g hg hgx => hsame g (List.mem_cons_of_mem _ hg) hgx)]
      simp only [List.filter_cons, hx, Bool.not_true, Bool.false_eq_true, if_false,
        if_true, List.length_cons, RunAcc.mk.injEq, Stats.mk.injEq, true_and, and_true]
      omega
    | false =>
      obtain ⟨m2, hl, hs1, hs2⟩ := hsame f (List.mem_cons_self _ _) hx
      have hstep : processFile exclude vault dpath acc f =
          { acc with stats := { acc.stats with
              skipped_same := acc.stats.skipped_same + 1 } } := by
        simp only [processFile, hx, Bool.false_eq_true, if_false, hl]
        rw [if_pos ⟨hs1, hs2⟩]
      rw [hstep, ih { acc with stats := { acc.stats with
            skipped_same := acc.stats.skipped_same + 1 } }
        (fun g hg hgx => hsame g (List.mem_cons_of_mem _ hg) hgx)]
      simp only [List.filter_cons, hx, Bool.not_false, Bool.false_eq_true, if_false,
        if_true, List.length_cons, RunAcc.mk.injEq, Stats.mk.injEq, true_and, and_true]
      omega

/-- When destination and source already agree at every enqueued file and
every reachable mirror directory exists, the whole planner-and-copy fold
appends no ops, changes nothing, and counts every file as `skipped_same`
or `skipped_excluded`. -/
theorem foldl_visitDir_noop (job : BackupJob) (vault : RelPath) (src : List SrcDir) :
    ∀ acc : RunAcc,
      (∀ pe ∈ targetsOf job.exclude src, sameAt acc.fs pe.1 pe.2) →
      (∀ d ∈ src, dirVisited job.exclude d.path = true → d.path ∈ acc.fs.dirs) →
      src.foldl (visitDir job vault) acc =
        { acc with stats := { acc.stats with
            skipped_same := acc.stats.skipped_same + (targetsOf job.exclude src).length,
            skipped_excluded := acc.stats.skipped_excluded +
              (excludedOf job.exclude src).length } } := by
  induction src with
  | nil => intro acc _ _; rfl
  | cons d rest ih =>
    intro acc hsame hdirs
    rw [List.foldl_cons]
    cases hv : dirVisited job.exclude d.path with
    | false =>
      have hstep : visitDir job vault acc d = acc := by
        unfold visitDir
        rw [if_neg (by simp [hv])]
      have ht : targetsOf job.exclude (d :: rest) = targetsOf job.exclude rest := by
        simp [targetsOf, List.flatMap_cons, hv]
      have he : excludedOf job.exclude (d :: rest) = excludedOf job.exclude rest := by
        simp [excludedOf, List.flatMap_cons, hv]
      rw [hstep, ih acc (fun pe hpe => hsame pe (by rw [ht]; exact hpe))
        (fun d' hd' hv' => hdirs d' (List.mem_cons_of_mem _ hd') hv'), ht, he]
    | true =>
      have hin : d.path ∈ acc.fs.dirs := hdirs d (List.mem_cons_self _ _) hv
      have hens : ensure_dir d.path acc = acc := by
        unfold ensure_dir
        rw [if_pos hin]
      have hstep : visitDir job vault acc d =
          d.files.foldl (processFile job.exclude vault d.path) acc := by
        unfold visitDir
        rw [if_pos hv, hens]
      rw [hstep]
      rw [files_foldl_noop _ _ _ _ acc (fun f hf hfx => hsame (d.path ++ [f.1], f.2) (by
        simp only [targetsOf, List.flatMap_cons, List.mem_append]
        left
        rw [if_pos hv]
        exact List.mem_map_of_mem _ (List.mem_filter.mpr ⟨hf, by simp [hfx]⟩)))]
      rw [ih { acc with stats := { acc.stats with
            skipped_same := acc.stats.skipped_same + (d.files.filter
              (fun f => !path_matches_patterns (d.path ++ [f.1]) job.exclude)).length,
            skipped_excluded := acc.stats.skipped_excluded + (d.files.filter
              (fun f => path_matches_patterns (d.path ++ [f.1]) job.exclude)).length } }
        (fun pe hpe => hsame pe (by
          simp only [targetsOf, List.flatMap_cons, List.mem_append]
          exact Or.inr hpe))
        (fun d' hd' hv' => hdirs d' (List.mem_cons_of_mem _ hd') hv')]
      have ht : (targetsOf job.exclude (d :: rest)).length =
          (d.files.filter
            (fun f => !path_matches_patterns (d.path ++ [f.1]) job.exclude)).length +
            (targetsOf job.exclude rest).length := by
        simp [targetsOf, List.flatMap_cons, hv, List.length_append]
      have he : (excludedOf job.exclude (d :: rest)).length =
          (d.files.filter
            (fun f => path_matches_patterns (d.path ++ [f.1]) job.exclude)).length +
            (excludedOf job.exclude rest).length := by
        simp [excludedOf, List.flatMap_cons, hv, List.length_append]
      rw [ht, he]
      simp only [RunAcc.mk.injEq, Stats.mk.injEq, true_and, and_true]
      omega

/-- **C7** as amended.  Idempotence holds for `mode=sync` (with every copy
succeeding): immediately re-running a job appends no journal op at all, and
its statistics count exactly the reachable non-excluded source files as
`skipped_same` and the rest as `skipped_excluded` — nothing is created,
replaced, deleted or quarantined.  (For `clone` and `safety_net` a second
run is *not* empty — see the counterexample — because the cleanup walks the
destination-side meta directory and, under clone, removes re-created empty
directories.)  The hypotheses say the source's file paths are
duplicate-free and stay out of the three reserved destination trees. -/
theorem C7_sync_idempotent (job : BackupJob) (fs0 : DestFS)
    (ts1 date1 u1 ts2 date2 u2 : String)
    (hmode : job.mode = "sync")
    (hnd : (srcPathsOf job.src).Nodup)
    (hres : ∀ q ∈ srcPathsOf job.src, reservedFree q) :
    (performRun job ts2 date2 u2 (performRun job ts1 date1 u1 fs0).fs).ops = [] ∧
    (performRun job ts2 date2 u2 (performRun job ts1 date1 u1 fs0).fs).stats =
      { skipped_same := (targetsOf job.exclude job.src).length,
        skipped_excluded := (excludedOf job.exclude job.src).length } := by
  have h1 : performRun job ts1 date1 u1 fs0 =
      { fs := writeSnapshotSummary job ts1 (writeMetaJournal job ts1
          (stage12 job (vaultRoot job ts1) (writeMetaJournal job ts1
            (addDir (addDir (addDir fs0 []) [".Rollback"]) (vaultRoot job ts1)))).fs),
        ops := (stage12 job (vaultRoot job ts1) (writeMetaJournal job ts1
          (addDir (addDir (addDir fs0 []) [".Rollback"]) (vaultRoot job ts1)))).ops ++ [],
        stats := Stats.add (stage12 job (vaultRoot job ts1) (writeMetaJournal job ts1
          (addDir (addDir (addDir fs0 []) [".Rollback"]) (vaultRoot job ts1)))).stats {} } := by
    simp only [performRun]
    rw [stage3_sync_identity _ _ _ _ _ hmode]
  have hsame1 : ∀ pe ∈ targetsOf job.exclude job.src,
      sameAt (performRun job ts1 date1 u1 fs0).fs pe.1 pe.2 := by
    intro pe hpe
    have hpres : reservedFree pe.1 := hres pe.1 (targetsOf_path_mem _ _ pe hpe)
    rw [h1]
    have hest : sameAt (stage12 job (vaultRoot job ts1) (writeMetaJournal job ts1
        (addDir (addDir (addDir fs0 []) [".Rollback"]) (vaultRoot job ts1)))).fs pe.1 pe.2 :=
      foldl_visitDir_sameAt job (vaultRoot job ts1) rfl job.src _ hnd hres pe hpe
    refine sameAt_of_lookup_eq ?_ hest
    rw [lookupFile_writeSnapshotSummary _ _ _ hpres, lookupFile_writeMetaJournal _ _ _ hpres]
  have hdirs1 : ∀ d ∈ job.src, dirVisited job.exclude d.path = true →
      d.path ∈ (performRun job ts1 date1 u1 fs0).fs.dirs := by
    intro d hd hv
    rw [h1]
    refine mem_dirs_writeSnapshotSummary _ _ _ (mem_dirs_writeMetaJournal _ _ _ ?_)
    exact foldl_visitDir_visits job _ job.src _ d hd hv
  have main : ∀ fsX : DestFS,
      (∀ pe ∈ targetsOf job.exclude job.src, sameAt fsX pe.1 pe.2) →
      (∀ d ∈ job.src, dirVisited job.exclude d.path = true → d.path ∈ fsX.dirs) →
      (performRun job ts2 date2 u2 fsX).ops = [] ∧
      (performRun job ts2 date2 u2 fsX).stats =
        { skipped_same := (targetsOf job.exclude job.src).length,
          skipped_excluded := (excludedOf job.exclude job.src).length } := by
    intro fsX hsX hdX
    have hsameB : ∀ pe ∈ targetsOf job.exclude job.src,
        sameAt (writeMetaJournal job ts2 (addDir (addDir (addDir fsX [])
          [".Rollback"]) (vaultRoot job ts2))) pe.1 pe.2 := by
      intro pe hpe
      have hpres : reservedFree pe.1 := hres pe.1 (targetsOf_path_mem _ _ pe hpe)
      refine sameAt_of_lookup_eq ?_ (hsX pe hpe)
      rw [lookupFile_writeMetaJournal _ _ _ hpres, lookupFile_addDir, lookupFile_addDir,
        lookupFile_addDir]
    have hdirsB : ∀ d ∈ job.src, dirVisited job.exclude d.path = true →
        d.path ∈ (writeMetaJournal job ts2 (addDir (addDir (addDir fsX [])
          [".Rollback"]) (vaultRoot job ts2))).dirs := by
      intro d hd hv
      exact mem_dirs_writeMetaJournal _ _ _
        (mem_dirs_addDir _ _ _ (mem_dirs_addDir _ _ _ (mem_dirs_addDir _ _ _
          (hdX d hd hv))))
    have hstage : stage12 job (vaultRoot job ts2) (writeMetaJournal job ts2 (addDir (addDir
        (addDir fsX []) [".Rollback"]) (vaultRoot job ts2))) =
        { fs := writeMetaJournal job ts2 (addDir (addDir
            (addDir fsX []) [".Rollback"]) (vaultRoot job ts2)),
          ops := [],
          stats := { skipped_same := 0 + (targetsOf job.exclude job.src).length,
                     skipped_excluded := 0 + (excludedOf job.exclude job.src).length } } := by
      unfold stage12
      exact foldl_visitDir_noop job _ job.src _ hsameB hdirsB
    simp only [performRun]
    rw [stage3_sync_identity _ _ _ _ _ hmode, hstage]
    refine ⟨rfl, ?_⟩
    show Stats.add { skipped_same := 0 + (targetsOf job.exclude job.src).length,
                     skipped_excluded := 0 + (excludedOf job.exclude job.src).length } {} = _
    simp [Stats.add, Stats.mk.injEq]
  exact main _ hsame1 hdirs1

/-- Witness for C7 as amended: a sync job with one identical file and one
excluded file, run twice from an empty destination. -/
theorem C7_sync_idempotent_witness :
    syncJobTwo.mode = "sync" ∧
    (srcPathsOf syncJobTwo.src).Nodup ∧
    (∀ q ∈ srcPathsOf syncJobTwo.src, reservedFree q) ∧
    ((performRun syncJobTwo "t2" "d2" "u2"
        (performRun syncJobTwo "t1" "d1" "u1" emptyDest).fs).ops = [] ∧
      (performRun syncJobTwo "t2" "d2" "u2"
        (performRun syncJobTwo "t1" "d1" "u1" emptyDest).fs).stats =
        { skipped_same := (targetsOf syncJobTwo.exclude syncJobTwo.src).length,
          skipped_excluded := (excludedOf syncJobTwo.exclude syncJobTwo.src).length }) :=
  ⟨rfl, by decide, by decide,
    C7_sync_idempotent syncJobTwo emptyDest "t1" "d1" "u1" "t2" "d2" "u2" rfl
      (by decide) (by decide)⟩

end DiskSyncPro
